import Mathlib

/-!
Shallow embedding of the concurrency core of the blinkit_payment_agent
repository: the stdio JSON-RPC transport in backend/core/mcp_client.py,
the session logic in backend/unified_agent.py, and the session registry
plus SSE streaming bridge in backend/api_server.py.  Each definition is
translated from the named source function; theorems settle the frozen
claims about those functions.
-/

/-! ## backend/core/mcp_client.py -/

/-- A JSON-RPC message as inspected by the reader thread of McpClient:
the code looks only at the "jsonrpc", "id", "error" and "result" fields
(the result payload is opaque to the transport and kept as a string). -/
structure RpcMsg where
  jsonrpc : String
  id : Option Nat
  error : Option String
  result : String
deriving DecidableEq

/-- A line arriving on the subprocess stdout: either raw text that
json.loads rejects (which also covers lines that are empty after strip),
or a successfully parsed message. -/
inductive StdoutLine where
  | malformed (raw : String)
  | parsed (msg : RpcMsg)
deriving DecidableEq

/-- McpClient._start_reader: the reader thread strips each stdout line,
skips empty lines, silently skips lines that fail json.loads, and puts a
parsed message on response_queue iff msg.get("jsonrpc") == "2.0" and
msg.get("id") is not None.  The function returns the queue contents in
arrival order. -/
def startReader : List StdoutLine → List RpcMsg
  | [] => []
  | StdoutLine.malformed _ :: rest => startReader rest
  | StdoutLine.parsed m :: rest =>
    if m.jsonrpc = "2.0" ∧ m.id ≠ none then m :: startReader rest
    else startReader rest

/-- Outcome of one McpClient._request call as observable by its caller. -/
inductive CallOutcome where
  | ok (payload : String)
  | rpcError (msg : String)
  | timeout
deriving DecidableEq

/-- The polling loop of McpClient._request for a single in-flight call,
run against the queued responses in arrival order.  Each iteration pops
the queue head.  A popped response whose id matches and that carries an
"error" field makes the code raise, but the raise statement sits inside
the try block whose bare except catches everything, so the loop merely
sleeps and continues; a matching response without "error" returns the
result; a response with a different id is dropped on the floor (the
pending map of the class is initialised but never used).  Once the queue
is exhausted, the repeated queue-empty path drives elapsed past the
timeout and TimeoutError is raised. -/
def requestPoll (request_id : Nat) : List RpcMsg → CallOutcome
  | [] => CallOutcome.timeout
  | r :: rest =>
    if r.id = some request_id then
      match r.error with
      | some _ => requestPoll request_id rest
      | none => CallOutcome.ok r.result
    else requestPoll request_id rest

/-- One polling step of a single caller on a popped response: some
outcome if the call completes on this response, none if the caller keeps
waiting.  The popped response is consumed either way, exactly as in the
while-loop body of McpClient._request. -/
def pollStep (request_id : Nat) (r : RpcMsg) : Option CallOutcome :=
  if r.id = some request_id then
    match r.error with
    | some _ => none
    | none => some (CallOutcome.ok r.result)
  else none

/-- Interleaved execution of two concurrent McpClient._request calls
(correlation ids rid1 and rid2) sharing one response_queue.  The
schedule lists which caller wakes up and pops the next queue item (true
means caller 1).  A caller that already completed no longer polls, so
the item stays queued for the other caller.  When the queue or the
schedule is exhausted, a caller still without an outcome times out. -/
def twoCallers (rid1 rid2 : Nat) :
    List Bool → List RpcMsg → Option CallOutcome → Option CallOutcome →
    CallOutcome × CallOutcome
  | _, [], o1, o2 => (o1.getD CallOutcome.timeout, o2.getD CallOutcome.timeout)
  | [], _ :: _, o1, o2 => (o1.getD CallOutcome.timeout, o2.getD CallOutcome.timeout)
  | true :: sch, r :: q, o1, o2 =>
    match o1 with
    | some c => twoCallers rid1 rid2 sch (r :: q) (some c) o2
    | none => twoCallers rid1 rid2 sch q (pollStep rid1 r) o2
  | false :: sch, r :: q, o1, o2 =>
    match o2 with
    | some c => twoCallers rid1 rid2 sch (r :: q) o1 (some c)
    | none => twoCallers rid1 rid2 sch q o1 (pollStep rid2 r)

/-! ## backend/unified_agent.py: the ensure-guarded client slots -/

/-- Handle to an McpClient as stored on a UnifiedAgent slot.  Building
the handle starts the subprocess; the field records whether the
initialize handshake completed on it. -/
structure ClientHandle where
  handshakeDone : Bool
deriving DecidableEq

/-- State of one ensure-guarded client slot of a UnifiedAgent, together
with a count of how many subprocesses have been started for it. -/
structure EnsureState where
  client : Option ClientHandle
  started : Nat
deriving DecidableEq

/-- UnifiedAgent._ensure_blinkit and its payment and travel twins: when
the slot is None, the McpClient is constructed (starting the process)
and assigned to the slot first, and only then is the initialize
handshake awaited; a handshake failure is logged and re-raised, but the
assignment is not undone.  When the slot is already non-None the
function returns at once, without touching the process or the
handshake.  The boolean argument tells whether the handshake would
raise if attempted; the boolean of the result tells whether the call
raised. -/
def ensureClient (handshakeRaises : Bool) (s : EnsureState) : EnsureState × Bool :=
  match s.client with
  | some _ => (s, false)
  | none =>
    if handshakeRaises then
      ({ client := some { handshakeDone := false }, started := s.started + 1 }, true)
    else
      ({ client := some { handshakeDone := true }, started := s.started + 1 }, false)

/-! ## backend/api_server.py: the session registry -/

/-- A UnifiedAgent instance as stored in the registry: the token is the
serial number of its construction (distinct constructions are distinct
instances), and warmedUp records whether the eager MCP warm-up of
_get_or_create_agent succeeded for it. -/
structure AgentInst where
  token : Nat
  warmedUp : Bool
deriving DecidableEq

/-- The process-wide registry state: the _chat_agents dict as an ordered
association list, plus the serial number for the next constructed
agent. -/
structure RegState where
  chatAgents : List (String × AgentInst)
  nextAgent : Nat
deriving DecidableEq

/-- Dict lookup, chat_id in _chat_agents followed by
_chat_agents[chat_id]. -/
def lookupAgent (cid : String) : List (String × AgentInst) → Option AgentInst
  | [] => none
  | (k, v) :: rest => if k = cid then some v else lookupAgent cid rest

/-- Dict assignment _chat_agents[new_chat_id] = agent: replaces the
value in place when the key exists, appends otherwise. -/
def insertAgent (cid : String) (a : AgentInst) :
    List (String × AgentInst) → List (String × AgentInst)
  | [] => [(cid, a)]
  | (k, v) :: rest =>
    if k = cid then (cid, a) :: rest else (k, v) :: insertAgent cid a rest

/-- Keys of the registry dict. -/
def agentKeys (m : List (String × AgentInst)) : List String := m.map Prod.fst

/-- Length of the longest id in a list of ids. -/
def maxKeyLen (used : List String) : Nat :=
  used.foldr (fun s acc => max s.length acc) 0

/-- Modelled from the source use of uuid.uuid4: the generator is
abstracted by its guarantee of interest, that the minted id differs
from every id already registered; the model returns an id strictly
longer than all of them. -/
def mintFresh (used : List String) : String :=
  String.mk (List.replicate (maxKeyLen used + 1) 'u')

/-- Tail of api_server._get_or_create_agent shared by every
cache-miss path: construct the UnifiedAgent, attempt the eager MCP
warm-up inside a try whose except only logs (so a warm-up failure does
not change the control flow, it only leaves the agent not warmed up,
to fail lazily on first tool use), store the agent under the new chat
id and return it. -/
def createUnder (newChatId : String) (warmupRaises : Bool) (s : RegState) :
    RegState × AgentInst × String :=
  let agent : AgentInst := { token := s.nextAgent, warmedUp := !warmupRaises }
  ({ chatAgents := insertAgent newChatId agent s.chatAgents,
     nextAgent := s.nextAgent + 1 }, agent, newChatId)

/-- api_server._get_or_create_agent: when a truthy chat_id is provided
and is a key of _chat_agents, the stored agent is returned with that
id; otherwise new_chat_id is the provided id when truthy (chat_id or
uuid4 in the source) and a freshly minted uuid otherwise, and the
cache-miss tail runs. -/
def getOrCreateAgent (chatId : Option String) (warmupRaises : Bool) (s : RegState) :
    RegState × AgentInst × String :=
  match chatId with
  | some cid =>
    if cid ≠ "" then
      match lookupAgent cid s.chatAgents with
      | some a => (s, a, cid)
      | none => createUnder cid warmupRaises s
    else createUnder (mintFresh (agentKeys s.chatAgents)) warmupRaises s
  | none => createUnder (mintFresh (agentKeys s.chatAgents)) warmupRaises s

/-! ## backend/unified_agent.py close and api_server.py shutdown -/

/-- An McpClient subprocess as seen by the close path: whether its
process has been terminated and waited on, and whether calling close on
it would raise. -/
structure TransportProc where
  terminated : Bool
  closeRaises : Bool
deriving DecidableEq

/-- The three client slots of one UnifiedAgent. -/
structure AgentChannels where
  blinkit : Option TransportProc
  payment : Option TransportProc
  travel : Option TransportProc
deriving DecidableEq

/-- UnifiedAgent.close: calls close (terminate then wait) on the
blinkit client when present, then on the payment client when present;
there is no handler around either call, so a raise propagates and skips
the rest, and the travel client is never closed at all.  The boolean of
the result reports whether the call raised. -/
def closeAgent (s : AgentChannels) : AgentChannels × Bool :=
  match s.blinkit with
  | some t =>
    if t.closeRaises then (s, true)
    else
      let s1 : AgentChannels :=
        { s with blinkit := some { t with terminated := true } }
      match s1.payment with
      | some p =>
        if p.closeRaises then (s1, true)
        else ({ s1 with payment := some { p with terminated := true } }, false)
      | none => (s1, false)
  | none =>
    match s.payment with
    | some p =>
      if p.closeRaises then (s, true)
      else ({ s with payment := some { p with terminated := true } }, false)
    | none => (s, false)

/-- api_server.shutdown_event: iterates over the registered agents,
calling close on each one inside a try whose except only logs, so a
raising agent does not stop the loop; afterwards the registry dict is
cleared.  The function returns the channel states of the agents after
their close attempts. -/
def shutdownEvent (agents : List AgentChannels) : List AgentChannels :=
  agents.map (fun a => (closeAgent a).1)

/-! ## backend/unified_agent.py: conversation state and the summariser -/

/-- Mutable conversation fields of a UnifiedAgent:
conversation_history as ordered (user, assistant) pairs and
conversation_summary. -/
structure SessionState where
  history : List (String × String)
  summary : String
deriving DecidableEq

/-- Constant max_history_for_summariser of UnifiedAgent. -/
def maxHistoryForSummariser : Nat := 12

/-- Python str.strip: whitespace removed from both ends. -/
def pyStrip (s : String) : String :=
  String.mk
    (((s.toList.dropWhile Char.isWhitespace).reverse.dropWhile
      Char.isWhitespace).reverse)

/-- UnifiedAgent._format_exchanges: a User line and an Assistant line
per exchange, all joined with blank lines. -/
def formatExchanges (exchanges : List (String × String)) : String :=
  String.intercalate "\n\n"
    (exchanges.foldr
      (fun (p : String × String) acc =>
        ("User: " ++ p.1) :: ("Assistant: " ++ p.2) :: acc) [])

/-- Python negative slicing l[-n:]: the last n elements, or the whole
list when it is shorter. -/
def lastSlice (n : Nat) (l : List (String × String)) : List (String × String) :=
  l.drop (l.length - n)

/-- UnifiedAgent._run_summariser: with fewer than 3 stored exchanges the
previous summary is returned untouched; otherwise the prompt is built
from the last 3 exchanges, merged with the previous summary when that
strips to nonempty; the summariser model is abstracted as a function
returning none when the model call raises.  A raising model, or a falsy
output, keeps the previous summary (failure is non-fatal). -/
def runSummariser (llm : String → Option String) (s : SessionState) : String :=
  if s.history.length < 3 then s.summary
  else
    let lastThree := lastSlice 3 s.history
    let newTurnsText := formatExchanges lastThree
    let prompt :=
      if pyStrip s.summary = "" then
        "Summarise this conversation. Extract concrete details (travel, shopping, NPCI, other as relevant).\n\n"
          ++ newTurnsText
      else
        "Merge the previous summary below with the new conversation turns.\n"
          ++ "**Previous summary:**\n" ++ s.summary
          ++ "\n\n**New conversation turns:**\n" ++ newTurnsText
    match llm prompt with
    | some out => if out ≠ "" then pyStrip out else s.summary
    | none => s.summary

/-- State-and-result effect of one UnifiedAgent.run call.  The model
computation inside the try block (agent.run or the run_stream loop,
including any nested tool calls) is abstracted as an Except value; the
summariser model is a function as in runSummariser.  On a model
exception the except branch logs and re-raises, reaching none of the
bookkeeping, so the state is returned unchanged.  On success the
exchange is appended, the history is trimmed to the last
max_history_for_summariser entries when it exceeds that cap, and the
summariser runs iff the trimmed length is at least 3 and divisible by
3.  The final boolean reports whether the summariser condition fired. -/
def runAnswer (modelResult : Except String String)
    (llm : String → Option String) (userMessage : String) (s : SessionState) :
    SessionState × Except String String × Bool :=
  match modelResult with
  | Except.error e => (s, Except.error e, false)
  | Except.ok assistantResponse =>
    let h1 := s.history ++ [(userMessage, assistantResponse)]
    let h2 :=
      if maxHistoryForSummariser < h1.length then
        h1.drop (h1.length - maxHistoryForSummariser)
      else h1
    let trigger : Bool := decide (3 ≤ h2.length) && decide (h2.length % 3 = 0)
    let s2 : SessionState := { history := h2, summary := s.summary }
    let summary2 := if trigger then runSummariser llm s2 else s.summary
    ({ history := h2, summary := summary2 }, Except.ok assistantResponse, trigger)

/-- A summariser model that never raises and always outputs the same
nonempty text, used to drive concrete executions. -/
def llmConst : String → Option String := fun _ => some "S"

/-- Iterated successful exchanges against one session starting empty:
the state after n calls of UnifiedAgent.run whose model computation
succeeds each time, together with whether the summariser condition
fired on the n-th call. -/
def runExchanges (llm : String → Option String) : Nat → SessionState × Bool
  | 0 => (⟨[], ""⟩, false)
  | n + 1 =>
    let prev := (runExchanges llm n).1
    let r := runAnswer (Except.ok "r") llm "m" prev
    (r.1, r.2.2)

/-! ## backend/unified_agent.py: the stream_text loop of run -/

/-- The stream_text loop of the writer path of UnifiedAgent.run.  Text
is modelled as a list of characters (Python strings are sequences of
code points).  For each chunk in arrival order: when the chunk starts
with the previously seen text, only the new suffix is computed,
otherwise the whole chunk is taken as the new part; final_output and
previous_output are then set to the chunk unconditionally; the writer
is invoked only when the new part is nonempty.  The result is the list
of parts handed to the writer and the final_output the loop leaves
behind (the initial finalSoFar models the empty initial final_output,
later replaced by a get_output fetch when no chunk arrived). -/
def streamLoop (previous finalSoFar : List Char) :
    List (List Char) → List (List Char) × List Char
  | [] => ([], finalSoFar)
  | c :: cs =>
    let newPart := if previous.isPrefixOf c then c.drop previous.length else c
    let rest := streamLoop c c cs
    ((if newPart.isEmpty then rest.1 else newPart :: rest.1), rest.2)

/-- Whole-so-far streaming discipline: starting from the given already
seen text, every chunk extends the chunk before it. -/
def cumulativeFrom : List Char → List (List Char) → Prop
  | _, [] => True
  | prev, c :: cs => prev <+: c ∧ cumulativeFrom c cs

/-! ## backend/api_server.py: the SSE streaming bridge -/

/-- The in-band failure marker of run_agent in api_server.chat_stream. -/
def errMarker : List Char := "__ERROR__:".toList

/-- Items that run_agent pushes onto the asyncio queue: the writer
callback pushes each nonempty streamed text chunk in order; when
agent.run raises, the except branch pushes one marker item made of
"__ERROR__:" followed by the message; the finally branch always pushes
the None sentinel last. -/
def runAgentItems (chunks : List (List Char)) (failure : Option (List Char)) :
    List (Option (List Char)) :=
  chunks.map some ++
    (match failure with
     | some e => [some (errMarker ++ e)]
     | none => []) ++ [none]

/-- Events the SSE consumer can observe: a content frame, an error
frame, or the end of the stream after the drain loop breaks on the
sentinel (the success path has no explicit done frame). -/
inductive SseEvent where
  | content (text : List Char)
  | error (message : List Char)
  | streamEnd
deriving DecidableEq

/-- Drain loop of sse_generator in streaming mode: items are pulled in
order until the None sentinel (break; the stream then ends) or until an
item that starts with "__ERROR__:" (an error frame is sent with the
marker stripped, then break); every other item is sent as a content
frame.  The result is the sequence of observations, with streamEnd
standing for the break on the sentinel. -/
def sseDrain : List (Option (List Char)) → List SseEvent
  | [] => []
  | none :: _ => [SseEvent.streamEnd]
  | some c :: rest =>
    if errMarker.isPrefixOf c then [SseEvent.error (c.drop errMarker.length)]
    else SseEvent.content c :: sseDrain rest

/-! ## Helper lemmas -/

/-- The polling loop of McpClient._request can only return a payload or
time out: the rpcError outcome is unreachable, because the raise that
should surface it happens inside the try block whose bare except
swallows it. -/
theorem requestPoll_ok_or_timeout (rid : Nat) (q : List RpcMsg) :
    requestPoll rid q = CallOutcome.timeout ∨
      ∃ p, requestPoll rid q = CallOutcome.ok p := by
  induction q with
  | nil => exact Or.inl rfl
  | cons r rest ih =>
    by_cases h : r.id = some rid
    · cases he : r.error with
      | some m => simpa [requestPoll, h, he] using ih
      | none => exact Or.inr ⟨r.result, by simp [requestPoll, h, he]⟩
    · simpa [requestPoll, h] using ih

/-! ## Claim theorems -/

/-- C1: claimed, for every call whose matching reply carries an error
envelope, that the call fails with RpcError carrying the remote message
rather than any other outcome such as a timeout, and that transport
errors are never swallowed inside the transport.  The code does the
opposite: on the concrete error envelope for id 1 the call times out,
and in general the polling loop can only return a payload or time out,
never an RPC error, because the raise is swallowed by the bare except
of the same try block. -/
theorem request_error_envelope_times_out :
    requestPoll 1 [{ jsonrpc := "2.0", id := some 1, error := some "boom", result := "" }]
      = CallOutcome.timeout ∧
    ∀ rid q, requestPoll rid q = CallOutcome.timeout ∨
      ∃ p, requestPoll rid q = CallOutcome.ok p :=
  ⟨rfl, requestPoll_ok_or_timeout⟩

/-- C2: claimed that with calls 1 and 2 pending, replies delivered out
of order (2 then 1) with a malformed line interleaved, both calls
resolve with their own results.  The reader does drop the malformed
line without error, but the two callers share one response queue and a
popped non-matching reply is discarded, so under the schedule in which
caller 1 polls twice first, caller 1 discards the id-2 reply and then
consumes its own, and caller 2 is left to time out. -/
theorem twoCallers_out_of_order_reply_lost :
    startReader
        [StdoutLine.parsed ⟨"2.0", some 2, none, "r2"⟩,
         StdoutLine.malformed "not json",
         StdoutLine.parsed ⟨"2.0", some 1, none, "r1"⟩]
      = [⟨"2.0", some 2, none, "r2"⟩, ⟨"2.0", some 1, none, "r1"⟩] ∧
    twoCallers 1 2 [true, true]
        [⟨"2.0", some 2, none, "r2"⟩, ⟨"2.0", some 1, none, "r1"⟩]
        none none
      = (CallOutcome.ok "r1", CallOutcome.timeout) := by
  exact ⟨by decide, by decide⟩

/-- C4: claimed that orderly shutdown terminates every started
transport of every session and that a failure closing one transport
does not prevent closing the rest.  In the code, UnifiedAgent.close
terminates the blinkit and payment processes but never the travel one
(first conjunct: travel stays unterminated), and a raise from the
blinkit close propagates before the payment close is reached (second
conjunct); only the registry-level loop isolates failures, per agent
(third conjunct). -/
theorem closeAgent_leaves_travel_running :
    closeAgent ⟨some ⟨false, false⟩, some ⟨false, false⟩, some ⟨false, false⟩⟩
      = (⟨some ⟨true, false⟩, some ⟨true, false⟩, some ⟨false, false⟩⟩, false) ∧
    closeAgent ⟨some ⟨false, true⟩, some ⟨false, false⟩, none⟩
      = (⟨some ⟨false, true⟩, some ⟨false, false⟩, none⟩, true) ∧
    shutdownEvent
        [⟨some ⟨false, true⟩, some ⟨false, false⟩, none⟩,
         ⟨some ⟨false, false⟩, some ⟨false, false⟩, some ⟨false, false⟩⟩]
      = [⟨some ⟨false, true⟩, some ⟨false, false⟩, none⟩,
         ⟨some ⟨true, false⟩, some ⟨true, false⟩, some ⟨false, false⟩⟩] := by
  exact ⟨rfl, rfl, rfl⟩

/-- C7: if the model computation inside UnifiedAgent.run fails, the
exception propagates to the caller and the session state is returned
unchanged: no exchange is appended, the history is not trimmed, the
summary is not touched and the summariser does not run. -/
theorem runAnswer_error_propagates_state_unchanged :
    ∀ (e : String) (llm : String → Option String) (msg : String) (s : SessionState),
      runAnswer (Except.error e) llm msg s = (s, Except.error e, false) :=
  fun _ _ _ _ => rfl

/-- C9: when the initialize handshake raises during the first ensure of
a tool client, the client handle stays assigned to the slot (first
conjunct: the slot holds a handle with the handshake not done, the
process was started once, and the call raised), and every subsequent
ensure returns that same never-initialised handle immediately: the slot
and the process count are unchanged, no raise occurs, and the outcome
does not depend on whether a retried handshake would succeed. -/
theorem ensureClient_keeps_broken_handle :
    ensureClient true ⟨none, 0⟩ = (⟨some ⟨false⟩, 1⟩, true) ∧
    ∀ f, ensureClient f ⟨some ⟨false⟩, 1⟩ = (⟨some ⟨false⟩, 1⟩, false) :=
  ⟨rfl, fun _ => rfl⟩

/-- C5: claimed that the rolling summary is regenerated exactly at
positive multiples of 3 completed exchanges and at no other count.  The
code instead tests divisibility on the history length after trimming it
to max_history_for_summariser = 12, itself a multiple of 3, so from the
12th exchange on the condition holds on every exchange: at the 13th
exchange (not a multiple of 3) the summariser runs again.  The early
counts behave as claimed (fires at 3, not at 4). -/
theorem summariser_runs_on_13th_exchange :
    (runExchanges llmConst 13).2 = true ∧
    13 % 3 = 1 ∧
    (runExchanges llmConst 13).1.history.length = 12 ∧
    (runExchanges llmConst 3).2 = true ∧
    (runExchanges llmConst 4).2 = false := by
  exact ⟨by decide, rfl, by decide, by decide, by decide⟩

/-- Helper: emitting a possibly empty new part and flattening is plain
concatenation. -/
theorem flatten_emit (t : List Char) (r : List (List Char)) :
    (if t.isEmpty then r else t :: r).flatten = t ++ r.flatten := by
  cases t <;> simp [List.isEmpty]

/-- Helper: the final_output left by the stream loop is the last chunk,
or the incoming value when no chunk arrived. -/
theorem streamLoop_final (cs : List (List Char)) :
    ∀ prev f, (streamLoop prev f cs).2 = cs.getLastD f := by
  induction cs with
  | nil => intro prev f; rfl
  | cons c cs ih =>
    intro prev f
    have hstep : (streamLoop prev f (c :: cs)).2 = (streamLoop c c cs).2 := rfl
    rw [hstep, ih c c, List.getLastD_cons]

/-- Helper: under the whole-so-far discipline, the text already seen
followed by the concatenation of the forwarded parts reconstructs the
final output of the loop, with nothing duplicated and nothing lost. -/
theorem streamLoop_concat (cs : List (List Char)) :
    ∀ prev, cumulativeFrom prev cs →
      prev ++ ((streamLoop prev prev cs).1).flatten = (streamLoop prev prev cs).2 := by
  induction cs with
  | nil => intro prev _; simp [streamLoop]
  | cons c cs ih =>
    intro prev h
    obtain ⟨⟨t, ht⟩, hrest⟩ := h
    have hpre : prev.isPrefixOf c = true := by
      rw [List.isPrefixOf_iff_prefix]
      exact ⟨t, ht⟩
    have hdrop : c.drop prev.length = t := by
      rw [← ht]
      exact List.drop_left prev t
    have ihc := ih c hrest
    simp only [streamLoop, hpre, if_true, hdrop]
    rw [flatten_emit, ← List.append_assoc, ht]
    exact ihc

/-- C3: when the model surfaces whole-so-far text (each chunk extends
the one before), the concatenation of all parts forwarded to the writer,
in emission order, equals the final_output the loop records as the
assistant text — which on an identically seeded session is the final
text of the model and hence the assistant_text a non-streaming run would
have produced — and that final text is the last whole-so-far chunk.  The
suffix computation thus forwards no duplicated text. -/
theorem stream_concat_eq_nonstreaming (cs : List (List Char))
    (h : cumulativeFrom [] cs) :
    ((streamLoop [] [] cs).1).flatten = (streamLoop [] [] cs).2 ∧
    (streamLoop [] [] cs).2 = cs.getLastD [] := by
  refine ⟨?_, streamLoop_final cs [] []⟩
  have hc := streamLoop_concat cs [] h
  simpa using hc

/-- Witness for C3 at the concrete whole-so-far chunk sequence
["h", "hi"]: the forwarded parts concatenate to the final output. -/
theorem stream_concat_eq_nonstreaming_witness :
    ((streamLoop [] [] [['h'], ['h', 'i']]).1).flatten
        = (streamLoop [] [] [['h'], ['h', 'i']]).2 ∧
    (streamLoop [] [] [['h'], ['h', 'i']]).2 = ['h', 'i'] :=
  stream_concat_eq_nonstreaming [['h'], ['h', 'i']]
    ⟨⟨['h'], rfl⟩, ⟨['i'], rfl⟩, trivial⟩

/-- Helper: the marker test accepts any item that is the marker followed
by a message. -/
theorem marker_isPrefixOf_append (e : List Char) :
    errMarker.isPrefixOf (errMarker ++ e) = true := by
  rw [List.isPrefixOf_iff_prefix]
  exact ⟨e, rfl⟩

/-- Helper: the drain loop sends marker-free items as content frames and
continues on the rest of the queue. -/
theorem sseDrain_clean_map (pre : List (List Char))
    (hpre : ∀ c ∈ pre, errMarker.isPrefixOf c = false) :
    ∀ rest, sseDrain (pre.map some ++ rest)
      = pre.map SseEvent.content ++ sseDrain rest := by
  induction pre with
  | nil => intro rest; rfl
  | cons c cs ih =>
    intro rest
    have hc := hpre c (by simp)
    have ihc := ih (fun x hx => hpre x (by simp [hx])) rest
    simp [sseDrain, hc, ihc]

/-- C8 amended: every observed event sequence of the streaming bridge
contains exactly one terminal event, it is the last event observed, and
the content frames before it are exactly the chunks the computation
emitted, in order, never retracted; the terminal is the error frame
carrying the failure message when the computation failed, and the
end-of-stream break on the sentinel when it succeeded — the success
part holding provided no genuine content chunk itself begins with the
in-band marker "__ERROR__:" (otherwise that chunk is delivered as a
terminal error frame instead, as the counterexample shows). -/
theorem sse_stream_terminal (chunks : List (List Char)) (failure : Option (List Char))
    (h : ∀ c ∈ chunks, errMarker.isPrefixOf c = false) :
    sseDrain (runAgentItems chunks failure)
      = chunks.map SseEvent.content ++
          [match failure with
           | some e => SseEvent.error e
           | none => SseEvent.streamEnd] := by
  unfold runAgentItems
  rw [List.append_assoc, sseDrain_clean_map chunks h]
  congr 1
  cases failure with
  | none => rfl
  | some e =>
    show sseDrain (some (errMarker ++ e) :: [none]) = [SseEvent.error e]
    simp [sseDrain, marker_isPrefixOf_append, List.drop_left]

/-- Witness for C8 at one content chunk and a failing computation: the
observed events are the content frame followed by the terminal error
frame. -/
theorem sse_stream_terminal_witness :
    sseDrain (runAgentItems [['a']] (some ['b']))
      = [SseEvent.content ['a'], SseEvent.error ['b']] :=
  sse_stream_terminal [['a']] (some ['b']) (by decide)

/-- C8 counterexample: the claim as stated promises a terminal Done on
success, but a successful computation whose only content chunk itself
begins with "__ERROR__:" is observed as a single terminal error frame:
no content frame, no end-of-stream event. -/
theorem sse_success_with_marker_content_ends_in_error :
    sseDrain (runAgentItems ["__ERROR__:x".toList] none)
      = [SseEvent.error ['x']] := by
  decide

/-- C10: the bridge encodes failure in-band on the content channel, so
any genuine content chunk that itself begins with "__ERROR__:" is
delivered as a terminal error frame with the marker stripped, ending the
stream early and dropping all remaining genuine content (and even the
real failure marker, had the computation failed later). -/
theorem sse_inband_marker_cuts_stream (pre post : List (List Char))
    (m : List Char) (failure : Option (List Char))
    (hpre : ∀ c ∈ pre, errMarker.isPrefixOf c = false) :
    sseDrain (runAgentItems (pre ++ (errMarker ++ m) :: post) failure)
      = pre.map SseEvent.content ++ [SseEvent.error m] := by
  unfold runAgentItems
  rw [List.map_append, List.append_assoc, List.append_assoc,
    sseDrain_clean_map pre hpre]
  congr 1
  show sseDrain (some (errMarker ++ m) :: _) = [SseEvent.error m]
  simp [sseDrain, marker_isPrefixOf_append, List.drop_left]

/-- Witness for C10: with genuine chunks "a", "__ERROR__:o", "z" from a
successful computation, the observed events are the content frame for
"a" and a terminal error frame carrying "o"; the chunk "z" is dropped. -/
theorem sse_inband_marker_cuts_stream_witness :
    sseDrain (runAgentItems [['a'], errMarker ++ ['o'], ['z']] none)
      = [SseEvent.content ['a'], SseEvent.error ['o']] :=
  sse_inband_marker_cuts_stream [['a']] [['z']] ['o'] none (by decide)

/-- Helper: every registered id is at most the longest registered id. -/
theorem length_le_maxKeyLen {s : String} :
    ∀ {used : List String}, s ∈ used → s.length ≤ maxKeyLen used := by
  intro used
  induction used with
  | nil => intro h; cases h
  | cons x xs ih =>
    intro h
    rcases List.mem_cons.mp h with h | h
    · subst h
      exact Nat.le_max_left _ _
    · exact Nat.le_trans (ih h) (Nat.le_max_right _ _)

/-- Helper: the minted id is strictly longer than every id in use. -/
theorem mintFresh_length (used : List String) :
    (mintFresh used).length = maxKeyLen used + 1 := by
  show (List.replicate (maxKeyLen used + 1) 'u').length = maxKeyLen used + 1
  simp

/-- Helper: the minted id differs from every id already in use. -/
theorem mintFresh_ne_of_mem {cid : String} {used : List String} (h : cid ∈ used) :
    mintFresh used ≠ cid := by
  intro he
  have h1 : cid.length ≤ maxKeyLen used := length_le_maxKeyLen h
  have h2 : (mintFresh used).length = maxKeyLen used + 1 := mintFresh_length used
  rw [he] at h2
  omega

/-- Helper: after the dict assignment, the id maps to the stored
agent. -/
theorem lookup_insert_self (cid : String) (a : AgentInst)
    (m : List (String × AgentInst)) :
    lookupAgent cid (insertAgent cid a m) = some a := by
  induction m with
  | nil => simp [insertAgent, lookupAgent]
  | cons kv rest ih =>
    obtain ⟨k, v⟩ := kv
    by_cases h : k = cid
    · simp [insertAgent, lookupAgent, h]
    · simp [insertAgent, lookupAgent, h, ih]

/-- Helper: after the dict assignment, the id is among the keys. -/
theorem mem_keys_insert (cid : String) (a : AgentInst)
    (m : List (String × AgentInst)) :
    cid ∈ agentKeys (insertAgent cid a m) := by
  induction m with
  | nil => simp [insertAgent, agentKeys]
  | cons kv rest ih =>
    obtain ⟨k, v⟩ := kv
    by_cases h : k = cid
    · simp [insertAgent, agentKeys, h]
    · simp only [insertAgent, h, if_false, agentKeys, List.map_cons]
      exact List.mem_cons_of_mem _ ih

/-- C6 amended: getOrCreate with a provided id already known to the
registry returns the existing agent instance unchanged (so repeated
calls with that id agree); a provided but unknown id registers the new
session under the provided id itself — the id is reused, not re-minted
(the correction forced by the counterexample); with no id a fresh id
distinct from every registered one is minted, so two calls with no id
yield two sessions with different ids and distinct instances; and a
warm-up failure does not prevent the session from being created and
registered (it is stored not warmed up, to fail lazily later). -/
theorem getOrCreate_semantics (s : RegState) (cid : String) (a : AgentInst)
    (w w1 w2 : Bool) (hcid : cid ≠ "") :
    (lookupAgent cid s.chatAgents = some a →
      getOrCreateAgent (some cid) w s = (s, a, cid)) ∧
    (lookupAgent cid s.chatAgents = none →
      (getOrCreateAgent (some cid) w s).2.2 = cid ∧
      lookupAgent cid (getOrCreateAgent (some cid) w s).1.chatAgents
        = some { token := s.nextAgent, warmedUp := !w }) ∧
    ((getOrCreateAgent none w1 s).2.2
        ≠ (getOrCreateAgent none w2 (getOrCreateAgent none w1 s).1).2.2 ∧
      (getOrCreateAgent none w1 s).2.1.token
        ≠ (getOrCreateAgent none w2 (getOrCreateAgent none w1 s).1).2.1.token) ∧
    lookupAgent (getOrCreateAgent none w1 s).2.2
        (getOrCreateAgent none w1 s).1.chatAgents
      = some { token := s.nextAgent, warmedUp := !w1 } := by
  refine ⟨?_, ?_, ⟨?_, ?_⟩, ?_⟩
  · intro h
    simp [getOrCreateAgent, hcid, h]
  · intro h
    simp [getOrCreateAgent, hcid, h, createUnder, lookup_insert_self]
  · simp only [getOrCreateAgent, createUnder]
    intro he
    have hm : mintFresh (agentKeys s.chatAgents)
        ∈ agentKeys (insertAgent (mintFresh (agentKeys s.chatAgents))
            { token := s.nextAgent, warmedUp := !w1 } s.chatAgents) :=
      mem_keys_insert _ _ _
    exact (mintFresh_ne_of_mem hm) he.symm
  · simp [getOrCreateAgent, createUnder]
  · simp [getOrCreateAgent, createUnder, lookup_insert_self]

/-- Witness for C6 at a registry that already knows id "c": getOrCreate
returns the stored instance with the registry unchanged. -/
theorem getOrCreate_semantics_witness :
    getOrCreateAgent (some "c") false
        { chatAgents := [("c", { token := 7, warmedUp := true })], nextAgent := 8 }
      = ({ chatAgents := [("c", { token := 7, warmedUp := true })], nextAgent := 8 },
          { token := 7, warmedUp := true }, "c") :=
  (getOrCreate_semantics
      { chatAgents := [("c", { token := 7, warmedUp := true })], nextAgent := 8 }
      "c" { token := 7, warmedUp := true } false false false
      (by decide)).1 (by simp [lookupAgent])

/-- C6 counterexample: the claim says that when the provided id is not
known a new id is minted; but on the empty registry, where minting
would return the id "u", the call with provided unknown id "X" creates
and registers the new session under the caller id "X" itself. -/
theorem getOrCreate_reuses_provided_unknown_id :
    lookupAgent "X" ([] : List (String × AgentInst)) = none ∧
    mintFresh (agentKeys ([] : List (String × AgentInst))) = "u" ∧
    getOrCreateAgent (some "X") false { chatAgents := [], nextAgent := 0 }
      = ({ chatAgents := [("X", { token := 0, warmedUp := true })], nextAgent := 1 },
          { token := 0, warmedUp := true }, "X") := by
  refine ⟨rfl, by decide, by decide⟩
